import Mathlib

/-!
Shallow embedding of the remote-clipboard redirection core
(`libs/clipboard/src/lib.rs`): the `ClipboardFile` message model with its
lifecycle predicates, the connection registry (`VEC_MSG_CHANNEL`), the
connection-id allocator (`CLIENT_CONN_ID_COUNTER` / `get_conn_id`) and the
dispatcher (`send_data`, `send_data_to_channel`, `send_data_to_all`).

Machine integers (`i32`) are modelled as `Int`; `u8` bytes as `Nat`.
Registry entries live in a list (the `Vec`), queues are modelled as the
list of messages enqueued so far, together with a `closed` flag recording
whether the consuming receiver has been dropped (a tokio unbounded send
fails exactly when the receiver is gone).
-/

/-- The `ClipboardFile` enum from `libs/clipboard/src/lib.rs` (lines 73-110).
`i32` fields become `Int`, `Vec<u8>` becomes `List Nat`,
`Vec<(i32, String)>` becomes `List (Int × String)`. -/
inductive ClipboardFile where
  | NotifyCallback (type : String) (title : String) (text : String)
  | MonitorReady
  | FormatList (format_list : List (Int × String))
  | FormatListResponse (msg_flags : Int)
  | FormatDataRequest (requested_format_id : Int)
  | FormatDataResponse (msg_flags : Int) (format_data : List Nat)
  | FileContentsRequest (stream_id : Int) (list_index : Int) (dw_flags : Int)
      (n_position_low : Int) (n_position_high : Int) (cb_requested : Int)
      (have_clip_data_id : Bool) (clip_data_id : Int)
  | FileContentsResponse (msg_flags : Int) (stream_id : Int) (requested_data : List Nat)
deriving DecidableEq, Repr

namespace ClipboardFile

/-- `ClipboardFile::is_stopping_allowed` (lib.rs lines 126-133):
`matches!(self, MonitorReady | FormatList { .. } | FormatDataRequest { .. })`. -/
def is_stopping_allowed : ClipboardFile → Bool
  | .MonitorReady => true
  | .FormatList _ => true
  | .FormatDataRequest _ => true
  | _ => false

/-- `ClipboardFile::is_beginning_message` (lib.rs lines 135-140):
`matches!(self, MonitorReady | FormatList { .. })`. -/
def is_beginning_message : ClipboardFile → Bool
  | .MonitorReady => true
  | .FormatList _ => true
  | _ => false

end ClipboardFile

/-- One entry of `VEC_MSG_CHANNEL` (struct `MsgChannel`, lib.rs lines 112-118).
The tokio unbounded channel is modelled by the list of messages enqueued
so far (`queue`) plus `closed`, true once the receiving half has been
dropped (then `sender.send` fails). -/
structure MsgChannel where
  peer_id : String
  conn_id : Int
  queue : List ClipboardFile
  closed : Bool
deriving DecidableEq, Repr

/-- The global mutable state of the core: the registry vector
`VEC_MSG_CHANNEL` and the allocator counter `CLIENT_CONN_ID_COUNTER`
(lib.rs lines 120-123). -/
structure RegState where
  channels : List MsgChannel
  counter : Int
deriving DecidableEq, Repr

/-- Initial process state: empty registry, counter `Mutex::new(0)`. -/
def initState : RegState := ⟨[], 0⟩

/-- `iter().find(..)` over the channel vector, returning the index of the
first match together with the matching entry (the index identifies the
underlying queue, since entries are only ever appended). -/
def findChannel (p : MsgChannel → Bool) : List MsgChannel → Option (Nat × MsgChannel)
  | [] => none
  | c :: cs =>
      if p c then some (0, c)
      else (findChannel p cs).map (fun r => (r.1 + 1, r.2))

/-- `get_client_conn_id` (lib.rs lines 143-150): pure first-match lookup of
a peer id, returning its `conn_id`. -/
def get_client_conn_id (peer_id : String) (st : RegState) : Option Int :=
  (findChannel (fun x => x.peer_id == peer_id) st.channels).map (fun r => r.2.conn_id)

/-- `get_conn_id` (lib.rs lines 152-156): increment the global counter and
return the new value. -/
def get_conn_id (st : RegState) : Int × RegState :=
  (st.counter + 1, { st with counter := st.counter + 1 })

/-- `get_rx_cliprdr_client` (lib.rs lines 158-179): find the entry for
`peer_id`, or allocate a fresh conn id and append a new entry. Returns
`(conn_id, queue handle)`; the queue handle (an `Arc` clone of the
receiver) is modelled by the entry's index in the vector. -/
def get_rx_cliprdr_client (peer_id : String) (st : RegState) : (Int × Nat) × RegState :=
  match findChannel (fun x => x.peer_id == peer_id) st.channels with
  | some r => ((r.2.conn_id, r.1), st)
  | none =>
      let conn_id := st.counter + 1
      ((conn_id, st.channels.length),
        ⟨st.channels ++ [⟨peer_id, conn_id, [], false⟩], st.counter + 1⟩)

/-- `get_rx_cliprdr_server` (lib.rs lines 181-199): find the entry for
`conn_id`, or append a new entry with that id and an empty `peer_id`.
Returns the queue handle, modelled by the entry's index. -/
def get_rx_cliprdr_server (conn_id : Int) (st : RegState) : Nat × RegState :=
  match findChannel (fun x => x.conn_id == conn_id) st.channels with
  | some r => (r.1, st)
  | none =>
      (st.channels.length, ⟨st.channels ++ [⟨"", conn_id, [], false⟩], st.counter⟩)

/-- The body of `send_data_to_channel` acting on the channel vector:
find the first entry with the given conn id; absent ⇒
`bail!("conn_id not found")`; found but receiver dropped ⇒ the
`sender.send(data)?` error; otherwise enqueue. -/
def sendToChannels (conn_id : Int) (data : ClipboardFile) :
    List MsgChannel → Except String (List MsgChannel)
  | [] => .error "conn_id not found"
  | c :: cs =>
      if c.conn_id == conn_id then
        if c.closed then .error "channel closed"
        else .ok ({ c with queue := c.queue ++ [data] } :: cs)
      else (sendToChannels conn_id data cs).map (fun cs' => c :: cs')

/-- `send_data_to_channel` (lib.rs lines 213-227): directed send; on any
error the state is unchanged. -/
def send_data_to_channel (conn_id : Int) (data : ClipboardFile) (st : RegState) :
    Except String Unit × RegState :=
  match sendToChannels conn_id data st.channels with
  | .ok cs => (.ok (), { st with channels := cs })
  | .error e => (.error e, st)

/-- `send_data_to_all` (lib.rs lines 229-237): enqueue on every channel,
wrapping each per-channel send in `allow_err!` (failures on closed
channels are logged and ignored); always returns `Ok(())`. -/
def send_data_to_all (data : ClipboardFile) (st : RegState) :
    Except String Unit × RegState :=
  (.ok (),
    { st with
        channels :=
          st.channels.map (fun c =>
            if c.closed then c else { c with queue := c.queue ++ [data] }) })

/-- `send_data` (lib.rs lines 201-212). The `cfg` split is a compile-time
deployment fact, modelled by the flag `broadcast`: on Windows
(`broadcast = false`) every send is directed; with the
`unix-file-copy-paste` build (`broadcast = true`) `conn_id == 0`
broadcasts, anything else is directed. -/
def send_data (broadcast : Bool) (conn_id : Int) (data : ClipboardFile)
    (st : RegState) : Except String Unit × RegState :=
  if broadcast then
    if conn_id == 0 then send_data_to_all data st
    else send_data_to_channel conn_id data st
  else send_data_to_channel conn_id data st

/-- One public call against the shared registry state; return values are
dropped, only the state effect is kept. -/
inductive RegOp where
  | client (peer_id : String)
  | server (conn_id : Int)
  | lookup (peer_id : String)
  | sendChan (conn_id : Int) (data : ClipboardFile)
  | sendAll (data : ClipboardFile)
deriving DecidableEq, Repr

/-- State effect of one call. `get_client_conn_id` is a pure read. -/
def applyOp (op : RegOp) (st : RegState) : RegState :=
  match op with
  | .client p => (get_rx_cliprdr_client p st).2
  | .server c => (get_rx_cliprdr_server c st).2
  | .lookup _ => st
  | .sendChan c d => (send_data_to_channel c d st).2
  | .sendAll d => (send_data_to_all d st).2

/-- Run a sequence of calls left to right. -/
def runOps : List RegOp → RegState → RegState
  | [], st => st
  | op :: ops, st => runOps ops (applyOp op st)

/-- Whether an op is a server-side lookup. -/
def RegOp.isServer : RegOp → Bool
  | .server _ => true
  | _ => false

/-- Results of `N` successive `get_conn_id` calls. -/
def genIds : Nat → RegState → List Int
  | 0, _ => []
  | n + 1, st =>
      let r := get_conn_id st
      r.1 :: genIds n r.2

/-! ### Basic lemmas about first-match search -/

theorem findChannel_eq_none {p : MsgChannel → Bool} :
    ∀ {l : List MsgChannel}, findChannel p l = none ↔ ∀ c ∈ l, p c = false := by
  intro l
  induction l with
  | nil => simp [findChannel]
  | cons c cs ih =>
    by_cases hc : p c <;> simp [findChannel, hc, ih]

theorem findChannel_append_singleton {p : MsgChannel → Bool} {l : List MsgChannel}
    (e : MsgChannel) (h : findChannel p l = none) :
    findChannel p (l ++ [e]) = if p e then some (l.length, e) else none := by
  induction l with
  | nil => by_cases he : p e <;> simp [findChannel, he]
  | cons c cs ih =>
    simp only [findChannel, List.cons_append, List.append_eq] at h ⊢
    by_cases hc : p c
    · rw [if_pos hc] at h
      exact absurd h (by simp)
    · rw [if_neg hc] at h ⊢
      rw [Option.map_eq_none'] at h
      rw [ih h]
      by_cases he : p e <;> simp [he]

/-! ### C7 / C8: lifecycle predicates -/

/-- C7: `is_stopping_allowed m` holds exactly for `MonitorReady`,
`FormatList` and `FormatDataRequest`, regardless of field values; every
beginning message is stop-eligible; the other five variants are never
stop-eligible. -/
theorem stopping_allowed_characterization :
    (∀ m : ClipboardFile, m.is_stopping_allowed = true ↔
        m = .MonitorReady ∨ (∃ l, m = .FormatList l) ∨
          (∃ i, m = .FormatDataRequest i)) ∧
    (∀ m : ClipboardFile, m.is_beginning_message = true → m.is_stopping_allowed = true) ∧
    (∀ k t x, (ClipboardFile.NotifyCallback k t x).is_stopping_allowed = false) ∧
    (∀ f, (ClipboardFile.FormatListResponse f).is_stopping_allowed = false) ∧
    (∀ f d, (ClipboardFile.FormatDataResponse f d).is_stopping_allowed = false) ∧
    (∀ a b c d e f g h,
      (ClipboardFile.FileContentsRequest a b c d e f g h).is_stopping_allowed = false) ∧
    (∀ f s d, (ClipboardFile.FileContentsResponse f s d).is_stopping_allowed = false) := by
  refine ⟨fun m => ?_, fun m => ?_, ?_, ?_, ?_, ?_, ?_⟩ <;>
    first
      | (cases m <;>
          simp [ClipboardFile.is_stopping_allowed, ClipboardFile.is_beginning_message])
      | (intros; rfl)

/-- Witness for C7 at a concrete message: `FormatDataRequest 5` is
stop-eligible. -/
theorem stopping_allowed_characterization_witness :
    (ClipboardFile.FormatDataRequest 5).is_stopping_allowed = true :=
  (stopping_allowed_characterization.1 _).mpr (Or.inr (Or.inr ⟨5, rfl⟩))

/-- C8: `is_beginning_message m` holds exactly for `MonitorReady` and
`FormatList`, regardless of field values; in particular it is false for
every `FormatDataRequest`. -/
theorem beginning_message_characterization :
    (∀ m : ClipboardFile, m.is_beginning_message = true ↔
        m = .MonitorReady ∨ ∃ l, m = .FormatList l) ∧
    (∀ i, (ClipboardFile.FormatDataRequest i).is_beginning_message = false) := by
  refine ⟨fun m => ?_, fun i => rfl⟩
  cases m <;> simp [ClipboardFile.is_beginning_message]

/-- Witness for C8 at a concrete message: `FormatDataRequest 0` as a
session's first message is flagged (predicate returns false). -/
theorem beginning_message_characterization_witness :
    (ClipboardFile.FormatDataRequest 0).is_beginning_message = false :=
  beginning_message_characterization.2 0

/-! ### C3: directed send to an absent connection -/

theorem sendToChannels_not_found {conn_id : Int} {data : ClipboardFile}
    {l : List MsgChannel} (h : ∀ c ∈ l, c.conn_id ≠ conn_id) :
    sendToChannels conn_id data l = .error "conn_id not found" := by
  induction l with
  | nil => rfl
  | cons c cs ih =>
    have hc : (c.conn_id == conn_id) = false := by
      simp [h c]
    simp only [sendToChannels, hc, if_false, Bool.false_eq_true]
    rw [ih (fun x hx => h x (List.mem_cons_of_mem _ hx))]
    rfl

/-- C3: sending to a `conn_id` with no registered entry returns the
`conn_id not found` error and leaves the registry and every queue
unchanged. -/
theorem send_absent_conn_not_found (st : RegState) (conn_id : Int)
    (m : ClipboardFile) (h : ∀ e ∈ st.channels, e.conn_id ≠ conn_id) :
    send_data_to_channel conn_id m st = (.error "conn_id not found", st) := by
  unfold send_data_to_channel
  rw [sendToChannels_not_found h]

/-- Witness for C3: sending to the absent conn id 1 in the initial state
fails with `conn_id not found` and changes nothing. -/
theorem send_absent_conn_not_found_witness :
    send_data_to_channel 1 .MonitorReady initState =
      (.error "conn_id not found", initState) :=
  send_absent_conn_not_found initState 1 .MonitorReady (by simp [initState])

/-! ### C5: idempotence of get-or-create by peer -/

/-- C5: a second `get_rx_cliprdr_client` call for the same peer returns the
same conn id and the same queue handle (entry index), adds no registry
entry and consumes no allocator id (the state is unchanged). -/
theorem get_or_create_by_peer_idempotent (st : RegState) (p : String) :
    (get_rx_cliprdr_client p (get_rx_cliprdr_client p st).2).1.1 =
        (get_rx_cliprdr_client p st).1.1 ∧
    (get_rx_cliprdr_client p (get_rx_cliprdr_client p st).2).1.2 =
        (get_rx_cliprdr_client p st).1.2 ∧
    (get_rx_cliprdr_client p (get_rx_cliprdr_client p st).2).2 =
        (get_rx_cliprdr_client p st).2 ∧
    (get_rx_cliprdr_client p (get_rx_cliprdr_client p st).2).2.channels.length =
        (get_rx_cliprdr_client p st).2.channels.length ∧
    (get_rx_cliprdr_client p (get_rx_cliprdr_client p st).2).2.counter =
        (get_rx_cliprdr_client p st).2.counter := by
  have key :
      get_rx_cliprdr_client p (get_rx_cliprdr_client p st).2 =
        ((get_rx_cliprdr_client p st).1, (get_rx_cliprdr_client p st).2) := by
    cases h : findChannel (fun x => x.peer_id == p) st.channels with
    | some r =>
      simp [get_rx_cliprdr_client, h]
    | none =>
      have happ := findChannel_append_singleton
        (p := fun x => x.peer_id == p) ⟨p, st.counter + 1, [], false⟩ h
      simp only [beq_self_eq_true, if_true] at happ
      simp [get_rx_cliprdr_client, h, happ]
  rw [key]
  exact ⟨rfl, rfl, rfl, rfl, rfl⟩

/-! ### C10: empty-peer aliasing of server-created entries -/

/-- C10: once a server-side lookup has created an entry (empty peer id,
caller-chosen conn id), a client-side `get_rx_cliprdr_client ""` finds that
entry: it returns the server entry's conn id and queue handle, allocates
nothing and leaves the state unchanged, and `get_client_conn_id ""`
returns that conn id — even though the allocator never produced it. -/
theorem empty_peer_aliasing (st : RegState) (conn_id : Int)
    (hc : ∀ e ∈ st.channels, e.conn_id ≠ conn_id)
    (hp : ∀ e ∈ st.channels, e.peer_id ≠ "") :
    (get_rx_cliprdr_client "" (get_rx_cliprdr_server conn_id st).2).1.1 = conn_id ∧
    (get_rx_cliprdr_client "" (get_rx_cliprdr_server conn_id st).2).1.2 =
        (get_rx_cliprdr_server conn_id st).1 ∧
    (get_rx_cliprdr_client "" (get_rx_cliprdr_server conn_id st).2).2 =
        (get_rx_cliprdr_server conn_id st).2 ∧
    get_client_conn_id "" (get_rx_cliprdr_server conn_id st).2 = some conn_id ∧
    (get_rx_cliprdr_server conn_id st).2.counter = st.counter := by
  have hfc : findChannel (fun x => x.conn_id == conn_id) st.channels = none := by
    rw [findChannel_eq_none]
    intro c hmem
    simp [hc c hmem]
  have hfp : findChannel (fun x => x.peer_id == "") st.channels = none := by
    rw [findChannel_eq_none]
    intro c hmem
    simp [hp c hmem]
  have happ := findChannel_append_singleton
    (p := fun x => x.peer_id == "") ⟨"", conn_id, [], false⟩ hfp
  simp only [beq_self_eq_true, if_true] at happ
  refine ⟨?_, ?_, ?_, ?_, ?_⟩ <;>
    simp [get_rx_cliprdr_server, get_rx_cliprdr_client, get_client_conn_id, hfc, happ]

/-- Witness for C10: after a server-side lookup for conn id 5 in the fresh
state, the client-side lookup for the empty peer id aliases it. -/
theorem empty_peer_aliasing_witness :
    (get_rx_cliprdr_client "" (get_rx_cliprdr_server 5 initState).2).1.1 = 5 ∧
    get_client_conn_id "" (get_rx_cliprdr_server 5 initState).2 = some 5 := by
  have h := empty_peer_aliasing initState 5 (by simp [initState]) (by simp [initState])
  exact ⟨h.1, h.2.2.2.1⟩

/-! ### C4: broadcast is best-effort -/

/-- C4: with broadcast supported and `conn_id == 0`, `send_data` returns
`Ok(())` unconditionally (it never aborts), and entry-by-entry the message
is appended to every queue whose receiver is still open while closed
entries are skipped untouched — a closed queue among the entries does not
block delivery to the rest. Peer ids, conn ids, the closed flags and the
allocator counter are unchanged. -/
theorem broadcast_best_effort (st : RegState) (m : ClipboardFile) :
    (send_data true 0 m st).1 = .ok () ∧
    (send_data true 0 m st).2.counter = st.counter ∧
    (send_data true 0 m st).2.channels.length = st.channels.length ∧
    (∀ i : Nat, (send_data true 0 m st).2.channels[i]? =
      (st.channels[i]?).map (fun c =>
        if c.closed then c else { c with queue := c.queue ++ [m] })) := by
  refine ⟨rfl, rfl, by simp [send_data, send_data_to_all], fun i => ?_⟩
  simp [send_data, send_data_to_all, List.getElem?_map]

/-- Witness for C4: three registered connections, the middle queue closed —
broadcast succeeds, delivers to entries 0 and 2, and skips entry 1. -/
theorem broadcast_best_effort_witness :
    (send_data true 0 .MonitorReady
        ⟨[⟨"a", 1, [], false⟩, ⟨"b", 2, [], true⟩, ⟨"c", 3, [], false⟩], 3⟩).1 =
      .ok () ∧
    (send_data true 0 .MonitorReady
        ⟨[⟨"a", 1, [], false⟩, ⟨"b", 2, [], true⟩, ⟨"c", 3, [], false⟩], 3⟩).2.channels[0]? =
      some ⟨"a", 1, [.MonitorReady], false⟩ ∧
    (send_data true 0 .MonitorReady
        ⟨[⟨"a", 1, [], false⟩, ⟨"b", 2, [], true⟩, ⟨"c", 3, [], false⟩], 3⟩).2.channels[1]? =
      some ⟨"b", 2, [], true⟩ ∧
    (send_data true 0 .MonitorReady
        ⟨[⟨"a", 1, [], false⟩, ⟨"b", 2, [], true⟩, ⟨"c", 3, [], false⟩], 3⟩).2.channels[2]? =
      some ⟨"c", 3, [.MonitorReady], false⟩ := by
  have h := broadcast_best_effort
    ⟨[⟨"a", 1, [], false⟩, ⟨"b", 2, [], true⟩, ⟨"c", 3, [], false⟩], 3⟩ .MonitorReady
  exact ⟨h.1, by rw [h.2.2.2 0]; rfl, by rw [h.2.2.2 1]; rfl, by rw [h.2.2.2 2]; rfl⟩

/-! ### Registry keys: the (peer_id, conn_id) view of the channel vector -/

/-- The identifying key of an entry; queues aside, this is all the registry
lookups inspect. -/
def chKey (c : MsgChannel) : String × Int := (c.peer_id, c.conn_id)

/-- First-match lookup of a peer id over the key view. -/
def lookupKey (p : String) : List (String × Int) → Option Int
  | [] => none
  | k :: ks => if k.1 == p then some k.2 else lookupKey p ks

theorem get_client_conn_id_eq_lookupKey (p : String) (st : RegState) :
    get_client_conn_id p st = lookupKey p (st.channels.map chKey) := by
  show (findChannel (fun x => x.peer_id == p) st.channels).map (fun r => r.2.conn_id)
      = lookupKey p (st.channels.map chKey)
  induction st.channels with
  | nil => rfl
  | cons c cs ih =>
    by_cases hc : c.peer_id == p
    · simp [findChannel, lookupKey, chKey, hc]
    · simp only [findChannel, lookupKey, chKey, hc, if_false, Bool.false_eq_true,
        Option.map_map, List.map_cons, ← ih]
      rfl

theorem lookupKey_append {p : String} {l : List (String × Int)} {c : Int}
    (t : List (String × Int)) (h : lookupKey p l = some c) :
    lookupKey p (l ++ t) = some c := by
  induction l with
  | nil => simp [lookupKey] at h
  | cons k ks ih =>
    by_cases hk : k.1 == p <;> simp_all [lookupKey]

theorem sendToChannels_ok_keys {conn_id : Int} {data : ClipboardFile} :
    ∀ {l l' : List MsgChannel}, sendToChannels conn_id data l = .ok l' →
      l'.map chKey = l.map chKey := by
  intro l
  induction l with
  | nil => intro l' h; simp [sendToChannels] at h
  | cons c cs ih =>
    intro l' h
    by_cases hc : c.conn_id == conn_id
    · rw [sendToChannels, if_pos hc] at h
      by_cases hcl : c.closed
      · rw [if_pos hcl] at h
        cases h
      · rw [if_neg hcl] at h
        cases h
        simp [chKey]
    · simp only [sendToChannels, hc, if_false, Bool.false_eq_true] at h
      cases hr : sendToChannels conn_id data cs with
      | error e => rw [hr] at h; simp [Except.map] at h
      | ok cs' =>
        rw [hr] at h
        simp only [Except.map] at h
        cases h
        simp [ih hr, chKey]

theorem applyOp_keys (op : RegOp) (st : RegState) :
    ∃ t, (applyOp op st).channels.map chKey = st.channels.map chKey ++ t := by
  cases op with
  | client p =>
    cases h : findChannel (fun x => x.peer_id == p) st.channels with
    | some r => exact ⟨[], by simp [applyOp, get_rx_cliprdr_client, h]⟩
    | none =>
      exact ⟨[(p, st.counter + 1)], by simp [applyOp, get_rx_cliprdr_client, h, chKey]⟩
  | server c =>
    cases h : findChannel (fun x => x.conn_id == c) st.channels with
    | some r => exact ⟨[], by simp [applyOp, get_rx_cliprdr_server, h]⟩
    | none => exact ⟨[("", c)], by simp [applyOp, get_rx_cliprdr_server, h, chKey]⟩
  | lookup p => exact ⟨[], by simp [applyOp]⟩
  | sendChan c d =>
    cases h : sendToChannels c d st.channels with
    | error e => exact ⟨[], by simp [applyOp, send_data_to_channel, h]⟩
    | ok cs => exact ⟨[], by simp [applyOp, send_data_to_channel, h, sendToChannels_ok_keys h]⟩
  | sendAll d =>
    refine ⟨[], ?_⟩
    simp only [applyOp, send_data_to_all, List.map_map, List.append_nil]
    apply List.map_congr_left
    intro a _
    by_cases ha : a.closed <;> simp [chKey, Function.comp, ha]

theorem runOps_keys (ops : List RegOp) :
    ∀ st : RegState, ∃ t, (runOps ops st).channels.map chKey = st.channels.map chKey ++ t := by
  induction ops with
  | nil => intro st; exact ⟨[], by simp [runOps]⟩
  | cons op ops ih =>
    intro st
    obtain ⟨t1, h1⟩ := applyOp_keys op st
    obtain ⟨t2, h2⟩ := ih (applyOp op st)
    exact ⟨t1 ++ t2, by simp [runOps, h2, h1]⟩

/-! ### C6: entry persistence -/

/-- C6: no public operation removes or replaces a registry entry — once
`get_client_conn_id p` returns `some c`, it still returns `some c` after
any further sequence of client lookups, server lookups, pure lookups,
directed sends and broadcasts; and `get_client_conn_id` itself mutates
nothing (its call is the identity on the state). -/
theorem entry_persistence :
    (∀ (ops : List RegOp) (st : RegState) (p : String) (c : Int),
        get_client_conn_id p st = some c →
          get_client_conn_id p (runOps ops st) = some c) ∧
    (∀ (q : String) (st : RegState), applyOp (.lookup q) st = st) := by
  refine ⟨fun ops st p c h => ?_, fun q st => rfl⟩
  rw [get_client_conn_id_eq_lookupKey] at h ⊢
  obtain ⟨t, ht⟩ := runOps_keys ops st
  rw [ht]
  exact lookupKey_append t h

/-- Witness for C6: peer "A" keeps conn id 1 across a server lookup, a
broadcast, a directed send and another client-side creation. -/
theorem entry_persistence_witness :
    get_client_conn_id "A"
      (runOps [.server 9, .sendAll .MonitorReady, .sendChan 1 .MonitorReady, .client "B"]
        (runOps [.client "A"] initState)) = some 1 :=
  entry_persistence.1 _ _ "A" 1 (by decide)

/-! ### C1: registry uniqueness -/

/-- Counterexample to C1 as stated: a server-side lookup for conn id 1
followed by a client-side lookup for a fresh peer leaves the registry with
two entries that share conn id 1 — the client-side allocator starts at 1
and knows nothing about ids pre-registered by server-side lookups. -/
theorem registry_conn_id_collision :
    ((runOps [.server 1, .client "A"] initState).channels.map (fun e => e.conn_id))
        = [1, 1] ∧
    ¬ ((runOps [.server 1, .client "A"] initState).channels.map
        (fun e => e.conn_id)).Nodup := by
  constructor
  · rfl
  · decide

theorem peer_pairwise_applyOp {st : RegState} (op : RegOp)
    (h : (st.channels.map (fun e => e.peer_id)).Pairwise (fun a b => a = b → a = "")) :
    ((applyOp op st).channels.map (fun e => e.peer_id)).Pairwise
      (fun a b => a = b → a = "") := by
  have hview : ∀ s : RegState,
      s.channels.map (fun e => e.peer_id) = (s.channels.map chKey).map Prod.fst := by
    intro s
    simp [chKey]
  rw [hview] at h ⊢
  cases op with
  | client p =>
    cases hf : findChannel (fun x => x.peer_id == p) st.channels with
    | some r => simpa [applyOp, get_rx_cliprdr_client, hf] using h
    | none =>
      have hnone : ∀ e ∈ st.channels, e.peer_id ≠ p := by
        intro e he
        have := (findChannel_eq_none.mp hf) e he
        simpa using this
      simp only [applyOp, get_rx_cliprdr_client, hf, List.map_append, List.map_cons,
        List.map_nil, chKey]
      rw [List.pairwise_append]
      refine ⟨h, by simp, ?_⟩
      intro a ha b hb
      simp only [List.mem_singleton] at hb
      subst hb
      simp only [List.map_map, List.mem_map] at ha
      obtain ⟨e, he, rfl⟩ := ha
      intro hep
      exact absurd hep (hnone e he)
  | server c =>
    cases hf : findChannel (fun x => x.conn_id == c) st.channels with
    | some r => simpa [applyOp, get_rx_cliprdr_server, hf] using h
    | none =>
      simp only [applyOp, get_rx_cliprdr_server, hf, List.map_append, List.map_cons,
        List.map_nil, chKey]
      rw [List.pairwise_append]
      refine ⟨h, by simp, ?_⟩
      intro a _ b hb
      simp only [List.mem_singleton] at hb
      subst hb
      intro hep
      exact hep
  | lookup p => exact h
  | sendChan c d =>
    obtain ⟨t, ht⟩ := applyOp_keys (.sendChan c d) st
    have ht' : (applyOp (.sendChan c d) st).channels.map chKey = st.channels.map chKey := by
      cases hr : sendToChannels c d st.channels with
      | error e => simp [applyOp, send_data_to_channel, hr]
      | ok cs => simp [applyOp, send_data_to_channel, hr, sendToChannels_ok_keys hr]
    rw [ht']
    exact h
  | sendAll d =>
    have ht' : (applyOp (.sendAll d) st).channels.map chKey = st.channels.map chKey := by
      simp only [applyOp, send_data_to_all, List.map_map]
      apply List.map_congr_left
      intro a _
      by_cases ha : a.closed <;> simp [chKey, Function.comp, ha]
    rw [ht']
    exact h

/-- The conn-id part of the no-server invariant: conn ids are pairwise
distinct and all bounded by the allocator counter. -/
def ConnInv (st : RegState) : Prop :=
  (st.channels.map (fun e => e.conn_id)).Nodup ∧
    ∀ e ∈ st.channels, e.conn_id ≤ st.counter

theorem connInv_applyOp {st : RegState} (op : RegOp) (hop : op.isServer = false)
    (h : ConnInv st) : ConnInv (applyOp op st) := by
  obtain ⟨h1, h2⟩ := h
  cases op with
  | client p =>
    cases hf : findChannel (fun x => x.peer_id == p) st.channels with
    | some r => exact ⟨by simpa [applyOp, get_rx_cliprdr_client, hf] using h1,
        by simpa [applyOp, get_rx_cliprdr_client, hf] using h2⟩
    | none =>
      constructor
      · simp only [applyOp, get_rx_cliprdr_client, hf, List.map_append, List.map_cons,
          List.map_nil]
        rw [List.nodup_append]
        refine ⟨h1, by simp, ?_⟩
        intro a ha hb
        simp only [List.mem_singleton] at hb
        subst hb
        simp only [List.mem_map] at ha
        obtain ⟨e, he, heq⟩ := ha
        have := h2 e he
        omega
      · intro e he
        simp only [applyOp, get_rx_cliprdr_client, hf, List.mem_append,
          List.mem_singleton] at he ⊢
        rcases he with he | he
        · have := h2 e he
          omega
        · subst he
          rfl
  | server c => simp [RegOp.isServer] at hop
  | lookup p => exact ⟨h1, h2⟩
  | sendChan c d =>
    cases hr : sendToChannels c d st.channels with
    | error e => exact ⟨by simpa [applyOp, send_data_to_channel, hr] using h1,
        by simpa [applyOp, send_data_to_channel, hr] using h2⟩
    | ok cs =>
      have hkeys : cs.map chKey = st.channels.map chKey := sendToChannels_ok_keys hr
      have hconn : cs.map (fun e => e.conn_id) = st.channels.map (fun e => e.conn_id) := by
        have := congrArg (List.map Prod.snd) hkeys
        simpa [List.map_map, chKey, Function.comp] using this
      constructor
      · simpa [applyOp, send_data_to_channel, hr, hconn] using h1
      · intro e he
        simp only [applyOp, send_data_to_channel, hr] at he ⊢
        have : e.conn_id ∈ cs.map (fun e => e.conn_id) := List.mem_map_of_mem _ he
        rw [hconn] at this
        simp only [List.mem_map] at this
        obtain ⟨e', he', heq⟩ := this
        rw [← heq]
        exact h2 e' he'
  | sendAll d =>
    have hconn : (applyOp (.sendAll d) st).channels.map (fun e => e.conn_id) =
        st.channels.map (fun e => e.conn_id) := by
      simp only [applyOp, send_data_to_all, List.map_map]
      apply List.map_congr_left
      intro a _
      by_cases ha : a.closed <;> simp [Function.comp, ha]
    constructor
    · rw [hconn]
      exact h1
    · intro e he
      have : e.conn_id ∈ (applyOp (.sendAll d) st).channels.map (fun e => e.conn_id) :=
        List.mem_map_of_mem _ he
      rw [hconn] at this
      simp only [List.mem_map] at this
      obtain ⟨e', he', heq⟩ := this
      rw [← heq]
      have : (applyOp (.sendAll d) st).counter = st.counter := rfl
      rw [this]
      exact h2 e' he'

theorem runOps_peer_pairwise (ops : List RegOp) :
    ∀ st : RegState,
      (st.channels.map (fun e => e.peer_id)).Pairwise (fun a b => a = b → a = "") →
      ((runOps ops st).channels.map (fun e => e.peer_id)).Pairwise
        (fun a b => a = b → a = "") := by
  induction ops with
  | nil => intro st h; exact h
  | cons op ops ih => intro st h; exact ih _ (peer_pairwise_applyOp op h)

theorem runOps_connInv (ops : List RegOp) :
    ∀ st : RegState, (∀ op ∈ ops, op.isServer = false) → ConnInv st →
      ConnInv (runOps ops st) := by
  induction ops with
  | nil => intro st _ h; exact h
  | cons op ops ih =>
    intro st hops h
    exact ih _ (fun o ho => hops o (List.mem_cons_of_mem _ ho))
      (connInv_applyOp op (hops op (List.mem_cons_self _ _)) h)

/-- C1 amended: after any sequence of registry calls from the fresh state,
no two entries share a non-empty peer id (exactly one entry per distinct
non-empty peer id); and conn ids are pairwise distinct provided the
sequence contains no server-side lookup — a server-side lookup can
pre-register a conn id that the client-side allocator later reissues
(see `registry_conn_id_collision`). -/
theorem registry_uniqueness_amended (ops : List RegOp) :
    ((runOps ops initState).channels.map (fun e => e.peer_id)).Pairwise
        (fun a b => a = b → a = "") ∧
    ((∀ op ∈ ops, op.isServer = false) →
      ((runOps ops initState).channels.map (fun e => e.conn_id)).Nodup) := by
  constructor
  · exact runOps_peer_pairwise ops initState (by simp [initState])
  · intro hops
    exact (runOps_connInv ops initState hops ⟨by simp [initState], by simp [initState]⟩).1

/-- Witness for C1 amended: two client-side creations give distinct peer
ids and distinct conn ids. -/
theorem registry_uniqueness_amended_witness :
    ((runOps [.client "A", .client "B"] initState).channels.map
        (fun e => e.conn_id)).Nodup ∧
    ((runOps [.client "A", .client "B"] initState).channels.map
        (fun e => e.peer_id)).Pairwise (fun a b => a = b → a = "") := by
  have h := registry_uniqueness_amended [.client "A", .client "B"]
  exact ⟨h.2 (by decide), h.1⟩

/-! ### C2: the id allocator -/

theorem genIds_eq (n : Nat) :
    ∀ st : RegState,
      genIds n st = (List.range n).map (fun i : Nat => st.counter + 1 + (i : Int)) := by
  induction n with
  | zero => intro st; rfl
  | succ n ih =>
    intro st
    rw [List.range_succ_eq_map]
    simp only [genIds, get_conn_id, List.map_cons, List.map_map, ih]
    refine List.cons_eq_cons.mpr ⟨by push_cast; ring, ?_⟩
    apply List.map_congr_left
    intro i _
    simp only [Function.comp_apply]
    push_cast
    ring

/-- C2: starting from the fresh process state, `N` successive `get_conn_id`
calls return exactly `1, 2, ..., N` in order: the first call returns 1,
the results are strictly increasing (so never a duplicate), 0 is never
returned, and the set of returned values is exactly `{1..N}`. -/
theorem conn_id_allocator_spec (N : Nat) :
    genIds N initState = (List.range N).map (fun i : Nat => (i : Int) + 1) ∧
    (genIds (N + 1) initState).head? = some 1 ∧
    (0 : Int) ∉ genIds N initState ∧
    (genIds N initState).Nodup ∧
    (genIds N initState).Pairwise (· < ·) ∧
    (∀ k : Int, k ∈ genIds N initState ↔ 1 ≤ k ∧ k ≤ N) := by
  have key : ∀ M : Nat, genIds M initState =
      (List.range M).map (fun i : Nat => (i : Int) + 1) := by
    intro M
    rw [genIds_eq]
    apply List.map_congr_left
    intro i _
    simp [initState]
    ring
  refine ⟨key N, ?_, ?_, ?_, ?_, ?_⟩
  · rw [key (N + 1), List.range_succ_eq_map]
    simp
  · rw [key N]
    simp only [List.mem_map, List.mem_range, not_exists]
    intro i
    intro h
    omega
  · rw [key N]
    refine List.Nodup.map ?_ (List.nodup_range N)
    intro a b h
    have h' : (a : Int) + 1 = (b : Int) + 1 := h
    omega
  · rw [key N]
    refine List.Pairwise.map _ (fun a b hab => ?_) (List.pairwise_lt_range N)
    show (a : Int) + 1 < (b : Int) + 1
    omega
  · intro k
    rw [key N]
    simp only [List.mem_map, List.mem_range]
    constructor
    · rintro ⟨i, hi, rfl⟩
      omega
    · rintro ⟨h1, h2⟩
      exact ⟨(k - 1).toNat, by omega, by omega⟩

/-- Witness for C2: among the first three allocated ids, 2 occurs and it
lies in `{1..3}`. -/
theorem conn_id_allocator_spec_witness :
    (2 : Int) ∈ genIds 3 initState :=
  ((conn_id_allocator_spec 3).2.2.2.2.2 2).mpr ⟨by norm_num, by norm_num⟩

/-! ### C9: tagged serialization round-trip -/

/-- A JSON-like value model for the wire-adjacent contract. -/
inductive Json where
  | null
  | bool (b : Bool)
  | num (n : Int)
  | str (s : String)
  | arr (items : List Json)
  | obj (fields : List (String × Json))

/-- A `(i32, String)` tuple serializes as a two-element array. -/
def encodePair (p : Int × String) : Json := .arr [.num p.1, .str p.2]

/-- A `u8` serializes as a number. -/
def encodeByte (b : Nat) : Json := .num b

/-- Modelled from the spec: the serde-derived encoder for `ClipboardFile`
under `#[serde(tag = "t", content = "c")]` (the derive-generated impl is
declared in src/ but its expansion is not); adjacent tagging puts the
variant name under the string key "t" and the named fields, when any,
as a companion structure under key "c". -/
def encode : ClipboardFile → Json
  | .NotifyCallback ty ti te =>
      .obj [("t", .str "NotifyCallback"),
            ("c", .obj [("type", .str ty), ("title", .str ti), ("text", .str te)])]
  | .MonitorReady => .obj [("t", .str "MonitorReady")]
  | .FormatList l =>
      .obj [("t", .str "FormatList"),
            ("c", .obj [("format_list", .arr (l.map encodePair))])]
  | .FormatListResponse f =>
      .obj [("t", .str "FormatListResponse"), ("c", .obj [("msg_flags", .num f)])]
  | .FormatDataRequest i =>
      .obj [("t", .str "FormatDataRequest"),
            ("c", .obj [("requested_format_id", .num i)])]
  | .FormatDataResponse f d =>
      .obj [("t", .str "FormatDataResponse"),
            ("c", .obj [("msg_flags", .num f), ("format_data", .arr (d.map encodeByte))])]
  | .FileContentsRequest sid li fl plo phi cb hcd cid =>
      .obj [("t", .str "FileContentsRequest"),
            ("c", .obj [("stream_id", .num sid), ("list_index", .num li),
                        ("dw_flags", .num fl), ("n_position_low", .num plo),
                        ("n_position_high", .num phi), ("cb_requested", .num cb),
                        ("have_clip_data_id", .bool hcd), ("clip_data_id", .num cid)])]
  | .FileContentsResponse f sid d =>
      .obj [("t", .str "FileContentsResponse"),
            ("c", .obj [("msg_flags", .num f), ("stream_id", .num sid),
                        ("requested_data", .arr (d.map encodeByte))])]

/-- Decode one `(i32, String)` tuple. -/
def decodePair : Json → Option (Int × String)
  | .arr [.num n, .str s] => some (n, s)
  | _ => none

/-- Decode a `Vec<(i32, String)>`. -/
def decodePairs : List Json → Option (List (Int × String))
  | [] => some []
  | j :: js =>
      match decodePair j, decodePairs js with
      | some p, some ps => some (p :: ps)
      | _, _ => none

/-- Decode one `u8` (a non-negative number). -/
def decodeByte : Json → Option Nat
  | .num n => if 0 ≤ n then some n.toNat else none
  | _ => none

/-- Decode a `Vec<u8>`. -/
def decodeBytes : List Json → Option (List Nat)
  | [] => some []
  | j :: js =>
      match decodeByte j, decodeBytes js with
      | some b, some bs => some (b :: bs)
      | _, _ => none

/-- Modelled from the spec: the serde-derived decoder matching `encode`;
it accepts exactly the eight known tags (an unknown tag, or a payload not
matching the variant's field set, is rejected with `none`). -/
def decode : Json → Option ClipboardFile
  | .obj [("t", .str "MonitorReady")] => some .MonitorReady
  | .obj [("t", .str "NotifyCallback"),
          ("c", .obj [("type", .str ty), ("title", .str ti), ("text", .str te)])] =>
      some (.NotifyCallback ty ti te)
  | .obj [("t", .str "FormatList"), ("c", .obj [("format_list", .arr js)])] =>
      (decodePairs js).map .FormatList
  | .obj [("t", .str "FormatListResponse"), ("c", .obj [("msg_flags", .num f)])] =>
      some (.FormatListResponse f)
  | .obj [("t", .str "FormatDataRequest"),
          ("c", .obj [("requested_format_id", .num i)])] =>
      some (.FormatDataRequest i)
  | .obj [("t", .str "FormatDataResponse"),
          ("c", .obj [("msg_flags", .num f), ("format_data", .arr js)])] =>
      (decodeBytes js).map (.FormatDataResponse f)
  | .obj [("t", .str "FileContentsRequest"),
          ("c", .obj [("stream_id", .num sid), ("list_index", .num li),
                      ("dw_flags", .num fl), ("n_position_low", .num plo),
                      ("n_position_high", .num phi), ("cb_requested", .num cb),
                      ("have_clip_data_id", .bool hcd), ("clip_data_id", .num cid)])] =>
      some (.FileContentsRequest sid li fl plo phi cb hcd cid)
  | .obj [("t", .str "FileContentsResponse"),
          ("c", .obj [("msg_flags", .num f), ("stream_id", .num sid),
                      ("requested_data", .arr js)])] =>
      (decodeBytes js).map (.FileContentsResponse f sid)
  | _ => none

theorem decodePairs_encodePairs (l : List (Int × String)) :
    decodePairs (l.map encodePair) = some l := by
  induction l with
  | nil => rfl
  | cons p ps ih => simp [encodePair, decodePair, decodePairs, ih]

theorem decodeBytes_encodeBytes (l : List Nat) :
    decodeBytes (l.map encodeByte) = some l := by
  induction l with
  | nil => rfl
  | cons b bs ih => simp [encodeByte, decodeByte, decodeBytes, ih]

set_option maxHeartbeats 1000000 in
/-- C9: encoding any `ClipboardFile` value through the tagged serialization
(discriminator key "t", companion payload key "c") and decoding the result
gives back an identical value, over all eight variants and all field
values. -/
theorem clipboard_serialization_round_trip (m : ClipboardFile) :
    decode (encode m) = some m := by
  cases m with
  | NotifyCallback ty ti te => rfl
  | MonitorReady => rfl
  | FormatList l =>
    have h : decode (encode (.FormatList l)) =
        (decodePairs (l.map encodePair)).map ClipboardFile.FormatList := rfl
    rw [h, decodePairs_encodePairs]
    rfl
  | FormatListResponse f => rfl
  | FormatDataRequest i => rfl
  | FormatDataResponse f d =>
    have h : decode (encode (.FormatDataResponse f d)) =
        (decodeBytes (d.map encodeByte)).map (ClipboardFile.FormatDataResponse f) := rfl
    rw [h, decodeBytes_encodeBytes]
    rfl
  | FileContentsRequest sid li fl plo phi cb hcd cid => rfl
  | FileContentsResponse f sid d =>
    have h : decode (encode (.FileContentsResponse f sid d)) =
        (decodeBytes (d.map encodeByte)).map (ClipboardFile.FileContentsResponse f sid) := rfl
    rw [h, decodeBytes_encodeBytes]
    rfl
